import Mathlib

/-!
Shallow embedding of `arachgraph.py` (candre23/Arachgraph): a spider-chart
application managing a factor set, a sample store, JSON persistence of factors
and samples, default color cycling and chart geometry.

JSON documents are modelled by the inductive `Json`; Python operations that can
raise (`in` on a non-container, `.keys()` on a non-dict, subscripting, indexing)
are modelled in `Except Err`.  Application state (`self.factors`,
`self.samples`, button enablement) is the structure `AppState`; each GUI
handler becomes a function `AppState → ... → AppState × Option Err`, where
`(st, some e)` models an early return after an error dialog (state unchanged)
and `(st', none)` a successful completion.
-/

/-- JSON values.  Numbers are modelled as integers: every number appearing in
the factor/sample documents of this program is an integer score. -/
inductive Json : Type where
  | null : Json
  | bool : Bool → Json
  | num : Int → Json
  | str : String → Json
  | arr : List Json → Json
  | obj : List (String × Json) → Json

/-- Outcomes of Python-level failures and of the application's early returns.
`valueError` models the `ValueError`s raised and caught in `load_factors` /
`load_sample` (the spec's `FactorFileError` / `SampleFileError`);
`duplicateName` models the duplicate-name warning path; `noFactors` the
"load factors before loading a sample" early return; `cancelled` the dialog
cancel / empty-name early return; the rest model uncaught Python exceptions. -/
inductive Err : Type where
  | valueError : Err
  | typeError : Err
  | attributeError : Err
  | keyError : Err
  | indexError : Err
  | duplicateName : Err
  | noFactors : Err
  | cancelled : Err
  deriving DecidableEq, Repr

/-- Python iteration `for item in x`: lists yield elements, dicts yield their
keys, strings yield one-character strings, other values raise `TypeError`. -/
def pyIter : Json → Except Err (List Json)
  | Json.arr xs => Except.ok xs
  | Json.obj kvs => Except.ok (kvs.map (fun kv => Json.str kv.1))
  | Json.str s => Except.ok (s.toList.map (fun c => Json.str (String.mk [c])))
  | _ => Except.error Err.typeError

/-- Python membership `needle in x` for a string needle: key membership for
dicts, element equality for lists (a non-string element never equals a
string), substring test for strings, `TypeError` otherwise. -/
def pyContains (needle : String) : Json → Except Err Bool
  | Json.obj kvs => Except.ok ((kvs.map Prod.fst).contains needle)
  | Json.arr xs =>
      Except.ok (xs.any (fun x => match x with
        | Json.str s => s = needle
        | _ => false))
  | Json.str s => Except.ok (decide (List.IsInfix needle.toList s.toList))
  | _ => Except.error Err.typeError

/-- Python dict subscript `d[k]`: `KeyError` when the key is absent,
`TypeError` when the value is not a dict. -/
def pyGetObj (j : Json) (k : String) : Except Err Json :=
  match j with
  | Json.obj kvs =>
      match kvs.lookup k with
      | some v => Except.ok v
      | none => Except.error Err.keyError
  | _ => Except.error Err.typeError

/-- Python `d.keys()`: `AttributeError` when the value is not a dict. -/
def pyKeys : Json → Except Err (List String)
  | Json.obj kvs => Except.ok (kvs.map Prod.fst)
  | _ => Except.error Err.attributeError

/-- A value used as a string (sample names, factor names): `TypeError`
otherwise. -/
def pyAsStr : Json → Except Err String
  | Json.str s => Except.ok s
  | _ => Except.error Err.typeError

/-- Python truth-value test `if not x`: `pyFalsy x = true` iff `x` is falsy. -/
def pyFalsy : Json → Bool
  | Json.null => true
  | Json.bool b => !b
  | Json.num n => n == 0
  | Json.str s => s.isEmpty
  | Json.arr xs => xs.isEmpty
  | Json.obj kvs => kvs.isEmpty

/-- `[f['name'] for f in items]` restricted to string names: extracts the
`name` field of each record. -/
def namesOf : List Json → Except Err (List String)
  | [] => Except.ok []
  | f :: rest =>
      match pyGetObj f "name" with
      | Except.error e => Except.error e
      | Except.ok v =>
          match pyAsStr v with
          | Except.error e => Except.error e
          | Except.ok s =>
              match namesOf rest with
              | Except.error e => Except.error e
              | Except.ok ns => Except.ok (s :: ns)

/-- `{f['name'] for f in self.factors}` as an ordered list of names (the set
view is taken with `List.toFinset` at the comparison sites). -/
def pyFactorNames (factors : Json) : Except Err (List String) :=
  match pyIter factors with
  | Except.error e => Except.error e
  | Except.ok items => namesOf items

/-- The short-circuiting check
`all("name" in item and "description" in item for item in loaded_factors)`
from `load_factors` (line 119). -/
def checkItems : List Json → Except Err Bool
  | [] => Except.ok true
  | it :: rest =>
      match pyContains "name" it with
      | Except.error e => Except.error e
      | Except.ok false => Except.ok false
      | Except.ok true =>
          match pyContains "description" it with
          | Except.error e => Except.error e
          | Except.ok false => Except.ok false
          | Except.ok true => checkItems rest

/-- The decode-and-validate part of `load_factors` (lines 116-123): iterate the
loaded document, require every item to contain `name` and `description` under
Python membership, raise `ValueError` otherwise; on success the document is
kept as is (`self.factors = loaded_factors`, line 126). -/
def loadFactorsDoc (doc : Json) : Except Err Json :=
  match pyIter doc with
  | Except.error e => Except.error e
  | Except.ok items =>
      match checkItems items with
      | Except.error e => Except.error e
      | Except.ok false => Except.error Err.valueError
      | Except.ok true => Except.ok doc

/-- A stored sample: `self.samples[name] = {"values": values, "color": color}`
(line 145 / line 201).  Values are raw JSON values: `add_sample` stores
integer slider values, `load_sample` stores whatever the file held. -/
structure SampleData : Type where
  values : List Json
  color : Json

/-- The application's data state: `self.factors` (kept as the raw loaded
document), `self.samples` (insertion-ordered), and the enabled state of the
"Add Sample" / "Save Sample" buttons. -/
structure AppState : Type where
  factors : Json
  samples : List (String × SampleData)
  addEnabled : Bool
  saveEnabled : Bool

/-- The state at `__init__`: no factors, no samples, both buttons disabled. -/
def initState : AppState :=
  { factors := Json.arr [], samples := [], addEnabled := false, saveEnabled := false }

/-- Names currently present in the sample store (`name in self.samples`). -/
def sampleNames (st : AppState) : List String :=
  st.samples.map Prod.fst

/-- `default_colors` of `add_sample` (line 142). -/
def defaultColors : List String :=
  ["#34a853", "#4285f4", "#fbbc05", "#ea4335", "#9c27b0", "#00bcd4"]

/-- `default_colors[len(self.samples) % len(default_colors)]` (line 143). -/
def nextDefaultColor (st : AppState) : String :=
  defaultColors.getD (st.samples.length % defaultColors.length) ""

/-- `load_factors` (lines 111-129): validate the document; on failure show an
error dialog and leave the state untouched; on success `_clear_all()` (samples
emptied, both buttons disabled), install the new factors, and enable the
"Add Sample" button. -/
def loadFactorsApp (st : AppState) (doc : Json) : AppState × Option Err :=
  match loadFactorsDoc doc with
  | Except.error e => (st, some e)
  | Except.ok d =>
      ({ factors := d, samples := [], addEnabled := true, saveEnabled := false }, none)

/-- `add_sample` (lines 131-148).  `slider` maps a factor name to the value of
its slider widget (`self.factor_controls[f['name']]['slider'].value()`); the
sliders are created with `setRange(1, 10)`, so range facts about slider values
enter theorems as hypotheses.  An empty name models the cancelled/empty input
dialog (line 134). -/
def addSample (st : AppState) (slider : String → Int) (name : String) :
    AppState × Option Err :=
  if name = "" then (st, some Err.cancelled)
  else if (sampleNames st).contains name then (st, some Err.duplicateName)
  else
    match pyFactorNames st.factors with
    | Except.error e => (st, some e)
    | Except.ok ns =>
        let values := ns.map (fun n => Json.num (slider n))
        let color := Json.str (nextDefaultColor st)
        ({ st with
            samples := st.samples ++ [(name, { values := values, color := color })],
            saveEnabled := true }, none)

/-- The `try` block of `load_sample` (lines 184-192): require the `name`,
`values` and `color` keys (short-circuiting `all`), then require the key set
of `values` to equal the factor-name set. -/
def loadSampleChecks (doc : Json) (factors : Json) : Except Err Unit :=
  match pyContains "name" doc with
  | Except.error e => Except.error e
  | Except.ok false => Except.error Err.valueError
  | Except.ok true =>
  match pyContains "values" doc with
  | Except.error e => Except.error e
  | Except.ok false => Except.error Err.valueError
  | Except.ok true =>
  match pyContains "color" doc with
  | Except.error e => Except.error e
  | Except.ok false => Except.error Err.valueError
  | Except.ok true =>
  match pyGetObj doc "values" with
  | Except.error e => Except.error e
  | Except.ok v =>
  match pyKeys v with
  | Except.error e => Except.error e
  | Except.ok ks =>
  match pyFactorNames factors with
  | Except.error e => Except.error e
  | Except.ok ns =>
      if ks.toFinset = ns.toFinset then Except.ok () else Except.error Err.valueError

/-- `[data['values'][f['name']] for f in self.factors]` (line 200). -/
def pyListComp (v : Json) : List String → Except Err (List Json)
  | [] => Except.ok []
  | n :: rest =>
      match pyGetObj v n with
      | Except.error e => Except.error e
      | Except.ok x =>
          match pyListComp v rest with
          | Except.error e => Except.error e
          | Except.ok xs => Except.ok (x :: xs)

/-- A decoded sample record, before insertion into the store. -/
structure DecSample : Type where
  name : String
  values : List Json
  color : Json

/-- The pure sample codec decode (the spec's `decodeSample(doc, F)`): the
validation of lines 184-192 followed by the name / value-reordering /
color extraction of lines 194-201, with no store interaction. -/
def decodeSample (doc : Json) (factors : Json) : Except Err DecSample :=
  match loadSampleChecks doc factors with
  | Except.error e => Except.error e
  | Except.ok _ =>
  match pyGetObj doc "name" with
  | Except.error e => Except.error e
  | Except.ok nv =>
  match pyAsStr nv with
  | Except.error e => Except.error e
  | Except.ok name =>
  match pyGetObj doc "values" with
  | Except.error e => Except.error e
  | Except.ok v =>
  match pyFactorNames factors with
  | Except.error e => Except.error e
  | Except.ok ns =>
  match pyListComp v ns with
  | Except.error e => Except.error e
  | Except.ok values =>
  match pyGetObj doc "color" with
  | Except.error e => Except.error e
  | Except.ok color => Except.ok { name := name, values := values, color := color }

/-- `load_sample` (lines 173-204): refuse when no factors are loaded, run the
validation, reject duplicate names, then reorder the values into factor order
and insert the sample. -/
def loadSampleApp (st : AppState) (doc : Json) : AppState × Option Err :=
  if pyFalsy st.factors then (st, some Err.noFactors)
  else
    match loadSampleChecks doc st.factors with
    | Except.error e => (st, some e)
    | Except.ok _ =>
    match pyGetObj doc "name" with
    | Except.error e => (st, some e)
    | Except.ok nv =>
    match pyAsStr nv with
    | Except.error e => (st, some e)
    | Except.ok name =>
    if (sampleNames st).contains name then (st, some Err.duplicateName)
    else
      match pyGetObj doc "values" with
      | Except.error e => (st, some e)
      | Except.ok v =>
      match pyFactorNames st.factors with
      | Except.error e => (st, some e)
      | Except.ok ns =>
      match pyListComp v ns with
      | Except.error e => (st, some e)
      | Except.ok values =>
      match pyGetObj doc "color" with
      | Except.error e => (st, some e)
      | Except.ok color =>
          ({ st with
              samples := st.samples ++ [(name, { values := values, color := color })],
              saveEnabled := true }, none)

/-- The sample codec encode, from `save_sample` (lines 158-163): emit `name`,
`color`, and `values` keyed by factor name,
`{self.factors[i]['name']: val for i, val in enumerate(sample_data['values'])}`
(`IndexError` when the score vector is longer than the factor list). -/
def encodeSample (name : String) (d : SampleData) (factors : Json) : Except Err Json :=
  match factors with
  | Json.arr fs =>
      match encodeValues fs d.values 0 with
      | Except.error e => Except.error e
      | Except.ok kvs =>
          Except.ok (Json.obj
            [("name", Json.str name), ("color", d.color), ("values", Json.obj kvs)])
  | _ => Except.error Err.typeError
where
  /-- `enumerate(sample_data['values'])` paired with `self.factors[i]['name']`. -/
  encodeValues (fs : List Json) : List Json → Nat → Except Err (List (String × Json))
    | [], _ => Except.ok []
    | val :: rest, i =>
        match fs.get? i with
        | none => Except.error Err.indexError
        | some f =>
            match pyGetObj f "name" with
            | Except.error e => Except.error e
            | Except.ok nv =>
                match pyAsStr nv with
                | Except.error e => Except.error e
                | Except.ok n =>
                    match encodeValues fs rest (i + 1) with
                    | Except.error e => Except.error e
                    | Except.ok kvs => Except.ok ((n, val) :: kvs)

/-- `change_sample_color` (lines 206-215): recolor an existing sample in
place; an unknown name would be a `KeyError`. -/
def setColor (st : AppState) (name : String) (color : Json) : AppState × Option Err :=
  if (sampleNames st).contains name then
    ({ st with
        samples := st.samples.map (fun p =>
          if p.1 = name then (p.1, { p.2 with color := color }) else p) }, none)
  else (st, some Err.keyError)

/-- Chart geometry from `_update_chart` (lines 286-300):
`angles = np.linspace(0, 2π, m, endpoint=False)`, i.e. `angle i = i * step`
with `step = 2π/m`, the loop closed by appending the first angle and the first
value, and the plot points their zip.  Stated over any semiring so that the
construction stays executable; the geometry theorems instantiate it at `ℝ`
with `step = 2π/m`. -/
def chartAngles {α : Type} [Mul α] [NatCast α] (step : α) (m : Nat) : List α :=
  (List.range m).map (fun (i : Nat) => (i : α) * step)

/-- The closed plot-point sequence: angles and values, each with its first
entry re-appended (`angles += angles[:1]`, `values + values[:1]`), zipped as
`ax.plot(angles, values)` consumes them. -/
def chartPoints {α : Type} [Mul α] [NatCast α] (step : α) (values : List α) :
    List (α × α) :=
  (chartAngles step values.length ++ (chartAngles step values.length).take 1).zip
    (values ++ values.take 1)

/-! ### Concrete documents used by counterexamples and witnesses -/

/-- A well-formed factor record named `A`. -/
def factorA : Json := Json.obj [("name", Json.str "A"), ("description", Json.str "d")]

/-- A well-formed factor record named `B`. -/
def factorB : Json := Json.obj [("name", Json.str "B"), ("description", Json.str "e")]

/-- A state with the single factor `A` loaded and no samples. -/
def stOneFactor : AppState :=
  { factors := Json.arr [factorA], samples := [], addEnabled := true, saveEnabled := false }

/-- A state with factors `A`, `B` loaded and no samples. -/
def stTwoFactors : AppState :=
  { factors := Json.arr [factorA, factorB], samples := [], addEnabled := true,
    saveEnabled := false }

/-- A sample document whose single score, 999, is far outside `[1,10]`. -/
def docScore999 : Json :=
  Json.obj [("name", Json.str "X"),
            ("values", Json.obj [("A", Json.num 999)]),
            ("color", Json.str "#ffffff")]

/-! ### Helper lemmas -/

/-- A successful `pyListComp` yields one value per requested name. -/
theorem pyListComp_length (v : Json) :
    ∀ (ns : List String) (vs : List Json), pyListComp v ns = Except.ok vs →
      vs.length = ns.length := by
  intro ns
  induction ns with
  | nil => intro vs h; simp [pyListComp] at h; simp [← h]
  | cons n rest ih =>
      intro vs h
      simp only [pyListComp] at h
      cases hx : pyGetObj v n with
      | error e => rw [hx] at h; exact absurd h (by simp)
      | ok x =>
          rw [hx] at h
          cases hr : pyListComp v rest with
          | error e => rw [hr] at h; exact absurd h (by simp)
          | ok xs =>
              rw [hr] at h
              cases h
              simp [ih xs hr]

/-! ### C5: reset on factor replacement -/

/-- C5: after `load_factors` succeeds with a new factor list, the sample store
is empty — `_clear_all()` empties `self.samples` and the success path only
installs the new factors. -/
theorem factor_load_resets_store (st : AppState) (doc : Json) (st' : AppState)
    (h : loadFactorsApp st doc = (st', none)) : st'.samples = [] := by
  unfold loadFactorsApp at h
  cases hd : loadFactorsDoc doc with
  | error e => rw [hd] at h; exact absurd h (by simp)
  | ok d =>
      rw [hd] at h
      cases h
      rfl

/-- Witness for C5 at a concrete one-factor document. -/
theorem factor_load_resets_store_witness :
    ((loadFactorsApp initState (Json.arr [factorA])).1).samples = [] :=
  factor_load_resets_store initState (Json.arr [factorA])
    (loadFactorsApp initState (Json.arr [factorA])).1 rfl

/-! ### C4: duplicate-name rejection without mutation -/

/-- A state holding the single factor `A` and one sample named `X`. -/
def stWithX : AppState :=
  { factors := Json.arr [factorA],
    samples := [("X", { values := [Json.num 5], color := Json.str "#34a853" })],
    addEnabled := true, saveEnabled := true }

/-- C4: adding a sample under a name already present in the store — manually
via `add_sample` or from a file via `load_sample` — fails with the
duplicate-name warning and returns the state exactly unchanged.  For the
manual path, a nonempty name models an actually submitted dialog; for the
file path, the document must have passed validation so that its name is
known. -/
theorem duplicate_name_rejected :
    (∀ (st : AppState) (slider : String → Int) (name : String), name ≠ "" →
      name ∈ sampleNames st →
      addSample st slider name = (st, some Err.duplicateName))
    ∧ (∀ (st : AppState) (doc : Json) (nv : Json) (name : String),
      pyFalsy st.factors = false →
      loadSampleChecks doc st.factors = Except.ok () →
      pyGetObj doc "name" = Except.ok nv →
      pyAsStr nv = Except.ok name →
      name ∈ sampleNames st →
      loadSampleApp st doc = (st, some Err.duplicateName)) := by
  constructor
  · intro st slider name hne hdup
    unfold addSample
    simp [hne, hdup]
  · intro st doc nv name hfals hchecks hnv hname hdup
    unfold loadSampleApp
    rw [hfals, hchecks, hnv]
    simp [hname, hdup]

/-- Witness for C4: a store already holding `X` rejects both a manual add of
`X` and a file load of a sample named `X`, leaving the store untouched. -/
theorem duplicate_name_rejected_witness :
    addSample stWithX (fun _ => 5) "X" = (stWithX, some Err.duplicateName)
    ∧ loadSampleApp stWithX docScore999 = (stWithX, some Err.duplicateName) :=
  ⟨duplicate_name_rejected.1 stWithX (fun _ => 5) "X" (by simp) (by simp [stWithX, sampleNames]),
   duplicate_name_rejected.2 stWithX docScore999 (Json.str "X") "X" rfl rfl rfl rfl
     (by simp [stWithX, sampleNames])⟩

/-! ### C9: factor-set precondition for sample creation -/

/-- Counterexample to C9: `load_factors` accepts the empty list (the `all(...)`
check is vacuously true), enables the "Add Sample" button, and `add_sample`
then succeeds, creating a sample with an empty score vector. -/
theorem empty_factor_load_enables_add :
    (loadFactorsApp initState (Json.arr [])).2 = none
    ∧ ((loadFactorsApp initState (Json.arr [])).1).addEnabled = true
    ∧ (addSample (loadFactorsApp initState (Json.arr [])).1 (fun _ => 5) "X").2 = none
    ∧ ((addSample (loadFactorsApp initState (Json.arr [])).1 (fun _ => 5) "X").1).samples
      = [("X", { values := [], color := Json.str "#34a853" })] :=
  ⟨rfl, rfl, rfl, rfl⟩

/-- C9 as amended: before any factor load the "Add Sample" action is disabled,
and any successful `load_factors` — with no requirement that the list be
nonempty or its names unique or nonempty — enables it. -/
theorem factor_load_enables_add :
    initState.addEnabled = false
    ∧ (∀ (st : AppState) (doc : Json) (st' : AppState),
        loadFactorsApp st doc = (st', none) → st'.addEnabled = true) := by
  refine ⟨rfl, ?_⟩
  intro st doc st' h
  unfold loadFactorsApp at h
  cases hd : loadFactorsDoc doc with
  | error e => rw [hd] at h; exact absurd h (by simp)
  | ok d => rw [hd] at h; cases h; rfl

/-- Witness for C9 (amended): a concrete successful load enables the action. -/
theorem factor_load_enables_add_witness :
    ((loadFactorsApp initState (Json.arr [factorA])).1).addEnabled = true :=
  factor_load_enables_add.2 initState (Json.arr [factorA])
    (loadFactorsApp initState (Json.arr [factorA])).1 rfl

/-! ### C8: deterministic default color -/

/-- C8: a manually added sample always receives the palette color indexed by
the store size immediately before insertion; a sample loaded from a file keeps
the file's explicit color; and recoloring an existing sample never changes the
store size, hence never changes which default the next sample receives. -/
theorem default_color_cycling :
    (∀ (st : AppState) (slider : String → Int) (name : String) (st' : AppState),
      addSample st slider name = (st', none) →
      ∃ ns, pyFactorNames st.factors = Except.ok ns ∧
        st'.samples = st.samples ++
          [(name, { values := ns.map (fun n => Json.num (slider n)),
                    color := Json.str
                      (defaultColors.getD (st.samples.length % defaultColors.length) "") })])
    ∧ (∀ (st : AppState) (doc : Json) (st' : AppState),
      loadSampleApp st doc = (st', none) →
      ∃ nm vs c, pyGetObj doc "color" = Except.ok c ∧
        st'.samples = st.samples ++ [(nm, { values := vs, color := c })])
    ∧ (∀ (st : AppState) (name : String) (c : Json),
      nextDefaultColor ((setColor st name c).1) = nextDefaultColor st) := by
  refine ⟨?_, ?_, ?_⟩
  · intro st slider name st' h
    unfold addSample at h
    by_cases hne : name = ""
    · rw [if_pos hne] at h; exact absurd h (by simp)
    · rw [if_neg hne] at h
      by_cases hdup : (sampleNames st).contains name = true
      · rw [if_pos (by simpa using hdup)] at h; exact absurd h (by simp)
      · rw [if_neg (by simpa using hdup)] at h
        cases hn : pyFactorNames st.factors with
        | error e => rw [hn] at h; exact absurd h (by simp)
        | ok ns =>
            rw [hn] at h
            cases h
            exact ⟨ns, rfl, rfl⟩
  · intro st doc st' h
    unfold loadSampleApp at h
    by_cases hfals : pyFalsy st.factors = true
    · rw [if_pos hfals] at h; exact absurd h (by simp)
    · rw [if_neg hfals] at h
      cases hc : loadSampleChecks doc st.factors with
      | error e => simp only [hc] at h; exact Option.noConfusion (congrArg Prod.snd h)
      | ok u =>
          simp only [hc] at h
          cases hnv : pyGetObj doc "name" with
          | error e => simp only [hnv] at h; exact Option.noConfusion (congrArg Prod.snd h)
          | ok nv =>
              simp only [hnv] at h
              cases hnm : pyAsStr nv with
              | error e => simp only [hnm] at h; exact Option.noConfusion (congrArg Prod.snd h)
              | ok name =>
                  simp only [hnm] at h
                  by_cases hdup : (sampleNames st).contains name = true
                  · rw [if_pos (by simpa using hdup)] at h; exact absurd h (by simp)
                  · rw [if_neg (by simpa using hdup)] at h
                    cases hv : pyGetObj doc "values" with
                    | error e => simp only [hv] at h; exact Option.noConfusion (congrArg Prod.snd h)
                    | ok v =>
                        simp only [hv] at h
                        cases hns : pyFactorNames st.factors with
                        | error e => simp only [hns] at h; exact Option.noConfusion (congrArg Prod.snd h)
                        | ok ns =>
                            simp only [hns] at h
                            cases hvals : pyListComp v ns with
                            | error e => simp only [hvals] at h; exact Option.noConfusion (congrArg Prod.snd h)
                            | ok values =>
                                simp only [hvals] at h
                                cases hcol : pyGetObj doc "color" with
                                | error e =>
                                    simp only [hcol] at h
                                    exact Option.noConfusion (congrArg Prod.snd h)
                                | ok color =>
                                    simp only [hcol] at h
                                    cases h
                                    exact ⟨name, values, color, rfl, rfl⟩
  · intro st name c
    unfold setColor nextDefaultColor
    by_cases hmem : (sampleNames st).contains name = true
    · rw [if_pos (by simpa using hmem)]
      simp
    · rw [if_neg (by simpa using hmem)]

/-- Witness for C8: from the empty store the first manual add receives
`default_colors[0]`, a loaded sample keeps its file color, and recoloring
leaves the next default unchanged. -/
theorem default_color_cycling_witness :
    (∃ ns, pyFactorNames stOneFactor.factors = Except.ok ns ∧
      ((addSample stOneFactor (fun _ => 5) "X").1).samples = stOneFactor.samples ++
        [("X", { values := ns.map (fun n => Json.num ((fun _ => (5 : Int)) n)),
                 color := Json.str
                   (defaultColors.getD
                     (stOneFactor.samples.length % defaultColors.length) "") })])
    ∧ (∃ nm vs c, pyGetObj docScore999 "color" = Except.ok c ∧
      ((loadSampleApp stOneFactor docScore999).1).samples = stOneFactor.samples ++
        [(nm, { values := vs, color := c })])
    ∧ nextDefaultColor ((setColor stWithX "X" (Json.str "#000000")).1)
      = nextDefaultColor stWithX := by
  refine ⟨?_, ?_, ?_⟩
  · obtain ⟨ns, h1, h2⟩ := default_color_cycling.1 stOneFactor (fun _ => 5) "X"
      (addSample stOneFactor (fun _ => 5) "X").1 rfl
    exact ⟨ns, h1, h2⟩
  · obtain ⟨nm, vs, c, h1, h2⟩ := default_color_cycling.2.1 stOneFactor docScore999
      (loadSampleApp stOneFactor docScore999).1 rfl
    exact ⟨nm, vs, c, h1, h2⟩
  · exact default_color_cycling.2.2 stWithX "X" (Json.str "#000000")

/-! ### C1: score shape and range -/

/-- Counterexample to C1: `load_sample` never range-checks scores, so a sample
file carrying the score 999 is accepted and stored as is. -/
theorem score_range_cex :
    (loadSampleApp stOneFactor docScore999).2 = none
    ∧ ((loadSampleApp stOneFactor docScore999).1).samples
      = [("X", { values := [Json.num 999], color := Json.str "#ffffff" })]
    ∧ ¬ ((999 : Int) ≤ 10) :=
  ⟨rfl, rfl, by decide⟩

/-- C1 as amended: every stored sample's score vector has exactly one entry
per factor; a manually added sample's scores are slider values, hence integers
in `[1,10]` (`setRange(1, 10)`); a sample loaded from a file is stored with
whatever values the file held, with no range check. -/
theorem score_shape_amended :
    (∀ (st : AppState) (slider : String → Int) (name : String) (st' : AppState)
      (ns : List String),
      pyFactorNames st.factors = Except.ok ns →
      (∀ s, 1 ≤ slider s ∧ slider s ≤ 10) →
      addSample st slider name = (st', none) →
      ∃ d, st'.samples = st.samples ++ [(name, d)] ∧ d.values.length = ns.length ∧
        ∀ v ∈ d.values, ∃ k : Int, v = Json.num k ∧ 1 ≤ k ∧ k ≤ 10)
    ∧ (∀ (st : AppState) (doc : Json) (st' : AppState) (ns : List String),
      pyFactorNames st.factors = Except.ok ns →
      loadSampleApp st doc = (st', none) →
      ∃ nm d, st'.samples = st.samples ++ [(nm, d)] ∧ d.values.length = ns.length) := by
  constructor
  · intro st slider name st' ns hns hrange h
    unfold addSample at h
    by_cases hne : name = ""
    · rw [if_pos hne] at h; exact absurd h (by simp)
    · rw [if_neg hne] at h
      by_cases hdup : (sampleNames st).contains name = true
      · rw [if_pos (by simpa using hdup)] at h; exact absurd h (by simp)
      · rw [if_neg (by simpa using hdup)] at h
        simp only [hns] at h
        cases h
        refine ⟨_, rfl, List.length_map _ _, ?_⟩
        intro v hv
        obtain ⟨n, _, rfl⟩ := List.mem_map.mp hv
        exact ⟨slider n, rfl, (hrange n).1, (hrange n).2⟩
  · intro st doc st' ns hns h
    unfold loadSampleApp at h
    by_cases hfals : pyFalsy st.factors = true
    · rw [if_pos hfals] at h; exact absurd h (by simp)
    · rw [if_neg hfals] at h
      cases hc : loadSampleChecks doc st.factors with
      | error e => simp only [hc] at h; exact Option.noConfusion (congrArg Prod.snd h)
      | ok u =>
          simp only [hc] at h
          cases hnv : pyGetObj doc "name" with
          | error e => simp only [hnv] at h; exact Option.noConfusion (congrArg Prod.snd h)
          | ok nv =>
              simp only [hnv] at h
              cases hnm : pyAsStr nv with
              | error e => simp only [hnm] at h; exact Option.noConfusion (congrArg Prod.snd h)
              | ok name =>
                  simp only [hnm] at h
                  by_cases hdup : (sampleNames st).contains name = true
                  · rw [if_pos (by simpa using hdup)] at h; exact absurd h (by simp)
                  · rw [if_neg (by simpa using hdup)] at h
                    cases hv : pyGetObj doc "values" with
                    | error e => simp only [hv] at h; exact Option.noConfusion (congrArg Prod.snd h)
                    | ok v =>
                        simp only [hv, hns] at h
                        cases hvals : pyListComp v ns with
                        | error e => simp only [hvals] at h; exact Option.noConfusion (congrArg Prod.snd h)
                        | ok values =>
                            simp only [hvals] at h
                            cases hcol : pyGetObj doc "color" with
                            | error e =>
                                simp only [hcol] at h
                                exact Option.noConfusion (congrArg Prod.snd h)
                            | ok color =>
                                simp only [hcol] at h
                                cases h
                                exact ⟨name, _, rfl, pyListComp_length v ns values hvals⟩

/-- Witness for C1 (amended) under one factor: a manual add stores one
in-range slider value; a file load stores one value per factor. -/
theorem score_shape_amended_witness :
    (∃ d, ((addSample stOneFactor (fun _ => 5) "X").1).samples
        = stOneFactor.samples ++ [("X", d)]
      ∧ d.values.length = (["A"] : List String).length
      ∧ ∀ v ∈ d.values, ∃ k : Int, v = Json.num k ∧ 1 ≤ k ∧ k ≤ 10)
    ∧ (∃ nm d, ((loadSampleApp stOneFactor docScore999).1).samples
        = stOneFactor.samples ++ [(nm, d)]
      ∧ d.values.length = (["A"] : List String).length) :=
  ⟨score_shape_amended.1 stOneFactor (fun _ => 5) "X" _ ["A"] rfl
      (fun s => by constructor <;> norm_num) rfl,
   score_shape_amended.2 stOneFactor docScore999 _ ["A"] rfl rfl⟩

/-! ### C2 and C10: factor document validation -/

/-- A candidate record passes the per-item test of `load_factors`:
`"name" in item and "description" in item`. -/
def recordOk (r : Json) : Prop :=
  pyContains "name" r = Except.ok true ∧ pyContains "description" r = Except.ok true

/-- Over dict records the per-item check of `load_factors` never raises, and
returns `True` exactly when every record passes. -/
theorem checkItems_spec :
    ∀ (records : List Json), (∀ r ∈ records, ∃ kvs, r = Json.obj kvs) →
      ∃ b, checkItems records = Except.ok b ∧ (b = true ↔ ∀ r ∈ records, recordOk r) := by
  intro records
  induction records with
  | nil => exact fun _ => ⟨true, rfl, by simp⟩
  | cons r rest ih =>
      intro hobj
      obtain ⟨kvs, rfl⟩ := hobj r (List.mem_cons_self r rest)
      by_cases hb1 : "name" ∈ kvs.map Prod.fst
      · by_cases hb2 : "description" ∈ kvs.map Prod.fst
        · obtain ⟨b, hb, hiff⟩ := ih (fun r hr => hobj r (List.mem_cons_of_mem _ hr))
          refine ⟨b, ?_, ?_⟩
          · simp [checkItems, pyContains, hb1, hb2, hb]
          · rw [hiff]
            constructor
            · intro hall r hr
              rcases List.mem_cons.mp hr with h | h
              · subst h
                constructor <;> simp [pyContains, hb1, hb2]
              · exact hall r h
            · intro hall r hr
              exact hall r (List.mem_cons_of_mem _ hr)
        · refine ⟨false, ?_, ?_⟩
          · simp [checkItems, pyContains, hb1, hb2]
          · simp only [Bool.false_eq_true, false_iff]
            intro hall
            have h := (hall _ (List.mem_cons_self _ _)).2
            simp [pyContains, hb2] at h
      · refine ⟨false, ?_, ?_⟩
        · simp [checkItems, pyContains, hb1]
        · simp only [Bool.false_eq_true, false_iff]
          intro hall
          have h := (hall _ (List.mem_cons_self _ _)).1
          simp [pyContains, hb1] at h

/-- Counterexample to C2: `load_factors` never checks name uniqueness; a
document with two identical records named `A` is accepted unchanged. -/
theorem factor_duplicate_names_cex :
    pyFactorNames (Json.arr [factorA, factorA]) = Except.ok ["A", "A"]
    ∧ ¬ (["A", "A"] : List String).Nodup
    ∧ loadFactorsDoc (Json.arr [factorA, factorA])
      = Except.ok (Json.arr [factorA, factorA]) :=
  ⟨rfl, by simp, rfl⟩

/-- C2 as amended: over a list of dict records, `load_factors` succeeds —
returning the list unchanged, hence order-preserving — exactly when every
record contains both a `name` and a `description` key; a record lacking
either key makes it fail with `ValueError`.  Name uniqueness is not checked. -/
theorem factor_load_validation_amended (records : List Json)
    (hobj : ∀ r ∈ records, ∃ kvs, r = Json.obj kvs) :
    (loadFactorsDoc (Json.arr records) = Except.ok (Json.arr records)
      ↔ ∀ r ∈ records, recordOk r)
    ∧ ((∃ r ∈ records, ¬ recordOk r)
      → loadFactorsDoc (Json.arr records) = Except.error Err.valueError) := by
  obtain ⟨b, hb, hiff⟩ := checkItems_spec records hobj
  unfold loadFactorsDoc
  simp only [pyIter, hb]
  cases b with
  | false =>
      refine ⟨⟨fun h => absurd h (by simp), fun hall => absurd (hiff.mpr hall) (by simp)⟩, ?_⟩
      exact fun _ => rfl
  | true =>
      refine ⟨⟨fun _ => hiff.mp rfl, fun _ => rfl⟩, ?_⟩
      rintro ⟨r, hr, hbad⟩
      exact absurd (hiff.mp rfl r hr) hbad

/-- Witness for C2 (amended): a two-record document with distinct names and
both fields present loads successfully, preserving order. -/
theorem factor_load_validation_amended_witness :
    loadFactorsDoc (Json.arr [factorA, factorB])
      = Except.ok (Json.arr [factorA, factorB]) :=
  (factor_load_validation_amended [factorA, factorB]
      (by intro r hr
          rcases List.mem_cons.mp hr with h | h
          · exact ⟨_, h⟩
          · exact ⟨_, by simpa using h⟩)).1.mpr
    (by intro r hr
        rcases List.mem_cons.mp hr with h | h
        · exact h ▸ ⟨rfl, rfl⟩
        · exact (by simpa using h : r = factorB) ▸ ⟨rfl, rfl⟩)

/-- Counterexample to C10: the empty JSON object — a dict, not a list, as
`pyIter` classifies it — is accepted by `load_factors`: `all(...)` over a dict
iterates its (zero) keys vacuously. -/
theorem factor_doc_nonlist_cex :
    pyIter (Json.obj []) = Except.ok []
    ∧ Json.obj [] ≠ Json.arr []
    ∧ loadFactorsDoc (Json.obj []) = Except.ok (Json.obj []) :=
  ⟨rfl, fun h => Json.noConfusion h, rfl⟩

/-- C10 as amended: the factor decoder performs no list type-check.  Iterable
documents whose iterated items all contain `name` and `description` under
Python membership are accepted, including the empty JSON object; non-iterable
documents (numbers, booleans, null) raise an uncaught `TypeError` rather than
the `ValueError` dialog; over a list of dict records a missing field fails
with `ValueError`. -/
theorem factor_doc_shape_amended :
    loadFactorsDoc (Json.obj []) = Except.ok (Json.obj [])
    ∧ (∀ n : Int, loadFactorsDoc (Json.num n) = Except.error Err.typeError)
    ∧ (∀ b : Bool, loadFactorsDoc (Json.bool b) = Except.error Err.typeError)
    ∧ loadFactorsDoc Json.null = Except.error Err.typeError
    ∧ (∀ records, (∀ r ∈ records, ∃ kvs, r = Json.obj kvs) →
        (∃ r ∈ records, ¬ recordOk r) →
        loadFactorsDoc (Json.arr records) = Except.error Err.valueError) := by
  refine ⟨rfl, fun _ => rfl, fun _ => rfl, rfl, ?_⟩
  rintro records hobj ⟨r, hr, hbad⟩
  obtain ⟨b, hb, hiff⟩ := checkItems_spec records hobj
  unfold loadFactorsDoc
  simp only [pyIter, hb]
  cases b with
  | false => rfl
  | true => exact absurd (hiff.mp rfl r hr) hbad

/-- Witness for C10 (amended): a one-record list whose record lacks both
fields fails with `ValueError`. -/
theorem factor_doc_shape_amended_witness :
    loadFactorsDoc (Json.arr [Json.obj []]) = Except.error Err.valueError :=
  factor_doc_shape_amended.2.2.2.2 [Json.obj []]
    (by intro r hr; exact ⟨[], by simpa using hr⟩)
    ⟨Json.obj [], by simp, by simp [recordOk, pyContains]⟩

/-! ### C3: key-set strictness of sample decoding -/

/-- A sample document whose `values` keys are a strict subset of the active
factor names `{A, B}`. -/
def docSubset : Json :=
  Json.obj [("name", Json.str "X"),
            ("values", Json.obj [("A", Json.num 1)]),
            ("color", Json.str "#ffffff")]

/-- C3: whenever the key set of the document's `values` mapping differs from
the factor-name set — subset, superset, or otherwise — decoding fails with the
`ValueError` of line 188, regardless of the scores present. -/
theorem decode_keyset_strict (doc : Json) (factors : Json) (v : Json)
    (ks ns : List String)
    (hv : pyGetObj doc "values" = Except.ok v)
    (hks : pyKeys v = Except.ok ks)
    (hns : pyFactorNames factors = Except.ok ns)
    (hne : ks.toFinset ≠ ns.toFinset) :
    decodeSample doc factors = Except.error Err.valueError := by
  cases doc with
  | obj kvs =>
      by_cases h1 : "name" ∈ kvs.map Prod.fst
      · by_cases h2 : "values" ∈ kvs.map Prod.fst
        · by_cases h3 : "color" ∈ kvs.map Prod.fst
          · simp [decodeSample, loadSampleChecks, pyContains, h1, h2, h3, hv, hks, hns, hne]
          · simp [decodeSample, loadSampleChecks, pyContains, h1, h2, h3]
        · simp [decodeSample, loadSampleChecks, pyContains, h1, h2]
      · simp [decodeSample, loadSampleChecks, pyContains, h1]
  | null => exact absurd hv (by simp [pyGetObj])
  | bool b => exact absurd hv (by simp [pyGetObj])
  | num n => exact absurd hv (by simp [pyGetObj])
  | str s => exact absurd hv (by simp [pyGetObj])
  | arr xs => exact absurd hv (by simp [pyGetObj])

/-- Witness for C3: with factors `{A, B}` a document carrying only key `A`
(with a valid score) is rejected. -/
theorem decode_keyset_strict_witness :
    decodeSample docSubset (Json.arr [factorA, factorB]) = Except.error Err.valueError :=
  decode_keyset_strict docSubset (Json.arr [factorA, factorB])
    (Json.obj [("A", Json.num 1)]) ["A"] ["A", "B"] rfl rfl rfl (by decide)

/-! ### C6: encode/decode round trip -/

/-- Name extraction commutes with dropping a prefix of the factor list. -/
theorem namesOf_drop :
    ∀ (i : Nat) (fs : List Json) (ns : List String),
      namesOf fs = Except.ok ns → namesOf (fs.drop i) = Except.ok (ns.drop i) := by
  intro i
  induction i with
  | zero => intro fs ns h; simpa using h
  | succ i ih =>
      intro fs ns h
      cases fs with
      | nil =>
          simp only [namesOf, Except.ok.injEq] at h
          subst h
          rfl
      | cons f fs' =>
          simp only [namesOf] at h
          cases hg : pyGetObj f "name" with
          | error e => exact absurd h (by simp [hg])
          | ok v =>
              simp only [hg] at h
              cases hs : pyAsStr v with
              | error e => exact absurd h (by simp [hs])
              | ok s =>
                  simp only [hs] at h
                  cases hrest : namesOf fs' with
                  | error e => exact absurd h (by simp [hrest])
                  | ok ns' =>
                      simp only [hrest, Except.ok.injEq] at h
                      subst h
                      simpa using ih fs' ns' hrest

/-- The `values` dict built by `save_sample` pairs the factor name at each
index with the score at that index: it is the zip of the factor names from
position `i` on with the scores. -/
theorem encodeValues_spec :
    ∀ (vals : List Json) (fs : List Json) (i : Nat) (ns : List String),
      namesOf (fs.drop i) = Except.ok ns → vals.length ≤ ns.length →
      encodeSample.encodeValues fs vals i = Except.ok (ns.zip vals) := by
  intro vals
  induction vals with
  | nil =>
      intro fs i ns _ _
      simp [encodeSample.encodeValues, List.zip_nil_right]
  | cons val rest ih =>
      intro fs i ns hdrop hlen
      cases ns with
      | nil => simp at hlen
      | cons n0 ns' =>
          cases hfd : fs.drop i with
          | nil => rw [hfd] at hdrop; exact absurd hdrop (by simp [namesOf])
          | cons f tail =>
              rw [hfd] at hdrop
              simp only [namesOf] at hdrop
              cases hg : pyGetObj f "name" with
              | error e => exact absurd hdrop (by simp [hg])
              | ok v =>
                  simp only [hg] at hdrop
                  cases hs : pyAsStr v with
                  | error e => exact absurd hdrop (by simp [hs])
                  | ok s =>
                      simp only [hs] at hdrop
                      cases hrest : namesOf tail with
                      | error e => exact absurd hdrop (by simp [hrest])
                      | ok ns'' =>
                          simp only [hrest, Except.ok.injEq, List.cons.injEq] at hdrop
                          obtain ⟨rfl, rfl⟩ := hdrop
                          have hget : fs.get? i = some f := by
                            rw [List.get?_eq_getElem?]
                            have hh := List.getElem?_drop fs i 0
                            rw [hfd] at hh
                            simpa using hh.symm
                          have hdd : fs.drop (i + 1) = tail := by
                            rw [← List.drop_drop, hfd]
                            rfl
                          have htail : namesOf (fs.drop (i + 1)) = Except.ok ns'' := by
                            rw [hdd]; exact hrest
                          have hlen2 : rest.length ≤ ns''.length := by
                            simpa using hlen
                          unfold encodeSample.encodeValues
                          simp only [hget, hg, hs, ih fs (i + 1) ns'' htail hlen2]
                          rfl

/-- Looking up names none of which is `n` ignores a leading `(n, v)` entry. -/
theorem pyListComp_cons_irrel :
    ∀ (ms : List String) (n : String) (v : Json) (kvs : List (String × Json)),
      n ∉ ms →
      pyListComp (Json.obj ((n, v) :: kvs)) ms = pyListComp (Json.obj kvs) ms := by
  intro ms
  induction ms with
  | nil => intro n v kvs _; rfl
  | cons m ms' ih =>
      intro n v kvs hn
      have hm : ¬ (m == n) = true := by
        simp only [beq_iff_eq]
        intro h
        exact hn (h ▸ List.mem_cons_self m ms')
      have hlook : List.lookup m ((n, v) :: kvs) = List.lookup m kvs := by
        simp only [List.lookup]
        rw [Bool.of_not_eq_true hm]
      have hrest : n ∉ ms' := fun hmem => hn (List.mem_cons_of_mem _ hmem)
      simp only [pyListComp, pyGetObj, hlook, ih n v kvs hrest]

/-- Reading the zipped dict back in name order returns the original scores,
provided the names are distinct. -/
theorem pyListComp_zip :
    ∀ (ns : List String) (vs : List Json), ns.Nodup → vs.length = ns.length →
      pyListComp (Json.obj (ns.zip vs)) ns = Except.ok vs := by
  intro ns
  induction ns with
  | nil =>
      intro vs _ hl
      cases vs with
      | nil => rfl
      | cons v vs' => simp at hl
  | cons n ns' ih =>
      intro vs hnd hl
      cases vs with
      | nil => simp at hl
      | cons v vs' =>
          have hlen : vs'.length = ns'.length := by simpa using hl
          have hnotmem : n ∉ ns' := (List.nodup_cons.mp hnd).1
          have hnodup' : ns'.Nodup := (List.nodup_cons.mp hnd).2
          show pyListComp (Json.obj ((n, v) :: ns'.zip vs')) (n :: ns') = Except.ok (v :: vs')
          have h1 : pyGetObj (Json.obj ((n, v) :: ns'.zip vs')) n = Except.ok v := by
            simp [pyGetObj, List.lookup]
          simp only [pyListComp, h1,
            pyListComp_cons_irrel ns' n v (ns'.zip vs') hnotmem, ih vs' hnodup' hlen]

/-- C6: encoding a well-formed sample against the active factor set and
decoding the result against the same factor set restores the sample exactly —
name, color, and scores in factor order. -/
theorem sample_roundtrip (name : String) (d : SampleData) (fs : List Json)
    (ns : List String)
    (hns : pyFactorNames (Json.arr fs) = Except.ok ns)
    (hnodup : ns.Nodup)
    (hlen : d.values.length = ns.length) :
    ∃ doc, encodeSample name d (Json.arr fs) = Except.ok doc ∧
      decodeSample doc (Json.arr fs)
        = Except.ok { name := name, values := d.values, color := d.color } := by
  have hnames : namesOf fs = Except.ok ns := by simpa [pyFactorNames, pyIter] using hns
  have henc : encodeSample.encodeValues fs d.values 0 = Except.ok (ns.zip d.values) :=
    encodeValues_spec d.values fs 0 ns (by simpa using hnames) (le_of_eq hlen)
  refine ⟨Json.obj [("name", Json.str name), ("color", d.color),
      ("values", Json.obj (ns.zip d.values))], ?_, ?_⟩
  · unfold encodeSample
    simp only [henc]
  · have hkeys : (ns.zip d.values).map Prod.fst = ns :=
      List.map_fst_zip ns d.values (le_of_eq hlen.symm)
    unfold decodeSample loadSampleChecks
    simp [pyContains, pyGetObj, pyKeys, pyAsStr, pyFactorNames, pyIter, hnames,
      List.lookup, hkeys, pyListComp_zip ns d.values hnodup hlen]

/-- Witness for C6: a two-factor sample with scores `[3, 7]` round-trips. -/
theorem sample_roundtrip_witness :
    ∃ doc, encodeSample "X"
        { values := [Json.num 3, Json.num 7], color := Json.str "#00ff00" }
        (Json.arr [factorA, factorB]) = Except.ok doc ∧
      decodeSample doc (Json.arr [factorA, factorB])
        = Except.ok { name := "X", values := [Json.num 3, Json.num 7],
                      color := Json.str "#00ff00" } :=
  sample_roundtrip "X"
    { values := [Json.num 3, Json.num 7], color := Json.str "#00ff00" }
    [factorA, factorB] ["A", "B"] rfl (by decide) rfl

/-! ### C7: chart geometry closure -/

/-- Element lookup in `chartPoints`: one point per zipped index. -/
theorem chartPoints_getElem (step : ℝ) (values : List ℝ) (i : Nat) (x : ℝ) (y : ℝ)
    (hx : (chartAngles step values.length
        ++ (chartAngles step values.length).take 1)[i]? = some x)
    (hy : (values ++ values.take 1)[i]? = some y) :
    (chartPoints step values)[i]? = some (x, y) := by
  unfold chartPoints
  exact List.getElem?_zip_eq_some.mpr ⟨hx, hy⟩

/-- C7: with `m ≥ 1` factors and `m` scores, the chart polyline has exactly
`m + 1` points; point `i < m` sits at angle `i·(2π/m)` with radius the `i`-th
score; and the final point repeats the first, closing the polygon. -/
theorem chart_geometry_closure (m : Nat) (hm : 1 ≤ m) (scores : List ℝ)
    (hs : scores.length = m) :
    (chartPoints ((2 * Real.pi) / m) scores).length = m + 1
    ∧ (∀ i : Nat, i < m → (chartPoints ((2 * Real.pi) / m) scores)[i]?
        = some ((i : ℝ) * ((2 * Real.pi) / m), scores.getD i 0))
    ∧ (chartPoints ((2 * Real.pi) / m) scores)[m]?
      = (chartPoints ((2 * Real.pi) / m) scores)[0]? := by
  set step : ℝ := (2 * Real.pi) / m with hstep
  have hal : (chartAngles step scores.length).length = m := by
    simp [chartAngles, hs]
  have hrange : ∀ i : Nat, i < m →
      (chartAngles step scores.length)[i]? = some ((i : ℝ) * step) := by
    intro i hi
    unfold chartAngles
    rw [List.getElem?_map, hs, List.getElem?_range hi]
    rfl
  refine ⟨?_, ?_, ?_⟩
  · unfold chartPoints
    simp only [List.length_zip, List.length_append, List.length_take, hal]
    simp only [hs]
    have h1 : min 1 m = 1 := Nat.min_eq_left hm
    omega
  · intro i hi
    have hia : (chartAngles step scores.length
        ++ (chartAngles step scores.length).take 1)[i]? = some ((i : ℝ) * step) := by
      rw [List.getElem?_append, if_pos (by rw [hal]; exact hi)]
      exact hrange i hi
    have hilt : i < scores.length := by rw [hs]; exact hi
    have hiv : (scores ++ scores.take 1)[i]? = some (scores.getD i 0) := by
      rw [List.getElem?_append, if_pos hilt, List.getD_eq_getElem?_getD,
        List.getElem?_eq_getElem hilt]
      rfl
    exact chartPoints_getElem step scores i _ _ hia hiv
  · have h0m : 0 < m := hm
    have h0s : 0 < scores.length := by rw [hs]; exact h0m
    have hv0 : scores[0]? = some (scores.getD 0 0) := by
      rw [List.getD_eq_getElem?_getD, List.getElem?_eq_getElem h0s]
      rfl
    have hma : (chartAngles step scores.length
        ++ (chartAngles step scores.length).take 1)[m]?
        = some (((0 : Nat) : ℝ) * step) := by
      rw [List.getElem?_append, if_neg (by rw [hal]; omega), hal, Nat.sub_self,
        List.getElem?_take, if_pos Nat.zero_lt_one]
      exact hrange 0 h0m
    have hmv : (scores ++ scores.take 1)[m]? = some (scores.getD 0 0) := by
      rw [List.getElem?_append, if_neg (by rw [hs]; omega), hs, Nat.sub_self,
        List.getElem?_take, if_pos Nat.zero_lt_one]
      exact hv0
    have h0a : (chartAngles step scores.length
        ++ (chartAngles step scores.length).take 1)[0]?
        = some (((0 : Nat) : ℝ) * step) := by
      rw [List.getElem?_append, if_pos (by rw [hal]; exact h0m)]
      exact hrange 0 h0m
    have h0v : (scores ++ scores.take 1)[0]? = some (scores.getD 0 0) := by
      rw [List.getElem?_append, if_pos h0s]
      exact hv0
    rw [chartPoints_getElem step scores m _ _ hma hmv,
      chartPoints_getElem step scores 0 _ _ h0a h0v]

/-- Witness for C7 at three factors with scores `[5, 5, 2]`. -/
theorem chart_geometry_closure_witness :
    (chartPoints ((2 * Real.pi) / (3 : Nat)) [(5 : ℝ), 5, 2]).length = 3 + 1
    ∧ (∀ i : Nat, i < 3 → (chartPoints ((2 * Real.pi) / (3 : Nat)) [(5 : ℝ), 5, 2])[i]?
        = some ((i : ℝ) * ((2 * Real.pi) / (3 : Nat)), List.getD [(5 : ℝ), 5, 2] i 0))
    ∧ (chartPoints ((2 * Real.pi) / (3 : Nat)) [(5 : ℝ), 5, 2])[3]?
      = (chartPoints ((2 * Real.pi) / (3 : Nat)) [(5 : ℝ), 5, 2])[0]? :=
  chart_geometry_closure 3 (by decide) [(5 : ℝ), 5, 2] (by simp)
